import Mathlib

/-
Shallow embedding of `src/src/circuit.rs` of the elektron_spice repository:
the `Circuit` data model, its mutation operations (`resistor`, `capacitor`,
`diode`, `bjt`, `circuit`, `subcircuit`, `voltage`, `set_value`), the
model/include resolver (`get_includes`), the include-set computation
(`includes`) and the netlist serializer (`to_str`).

Modelling conventions:
  * Rust `String` is Lean `String`; `Vec<T>` is `List T`.
  * `HashMap<String, String>` is an insertion-ordered association list
    `List (String × String)`; `insert` (overwrite) and `entry(..).or_insert`
    (keep first) are modelled by `insertOv` and `orInsert`.  Rust's HashMap
    iteration order is unspecified; the model fixes insertion order.  No claim
    depends on the iteration order of a map.
  * The filesystem is abstract: `FS` maps a directory path to its entries in
    the order `fs::read_dir` reports them.  A `FileEntry` carries the data the
    code extracts from an entry: the entry path, its parent directory, the
    `is_file` flag, the capture-group-1 strings of every `RE_SUBCKT` and
    `RE_MODEL` match of the file content (in content order), and the
    capture-group-1 string of the first `RE_INCLUDE` match, if any
    (`Regex::captures` returns only the first match; `RE_INCLUDE` has a single
    capture group, so `caps.iter().skip(1)` yields exactly that one capture).
    File reads are assumed to succeed; I/O errors are outside the model.
  * A Rust panic (`unwrap` on `Err`) is modelled by `Option`: `none` is a
    panic, `some r` a normal return of `r`.
-/

namespace ElektronSpice

/-- Error kinds of the repository's `Error` enum.  The enum is defined in
`error.rs`, which is not under `src/`; the two constructors below are exactly
the ones `circuit.rs` constructs: `Error::UnknownCircuitElement(reference)` in
`set_value` (line 160) and `Error::SpiceModelNotFound(key)` in `get_includes`
(line 231).  The spec (§7) calls them `UnknownElement` and `ModelNotFound`. -/
inductive Error where
  | UnknownCircuitElement (reference : String)
  | SpiceModelNotFound (key : String)
deriving DecidableEq

/-- CircuitItem enum, circuit.rs lines 50-58: resistor, capacitor, diode,
bipolar transistor, sub-circuit instance, voltage source. -/
inductive CircuitItem where
  | R (reference n0 n1 value : String)
  | C (reference n0 n1 value : String)
  | D (reference n0 n1 value : String)
  | Q (reference n0 n1 n2 value : String)
  | X (reference : String) (n : List String) (value : String)
  | V (reference n0 n1 value : String)
deriving DecidableEq

/-- Rust's char-based `str::starts_with(c)`: test of the first character.
Defined on `String.data` so that concrete instances reduce in the kernel. -/
def startsWithChar (c : Char) (s : String) : Bool :=
  match s.data with
  | [] => false
  | c' :: _ => c' == c

/-- Rust's char-based `str::contains(c)`: membership of a character.
Defined on `String.data` so that concrete instances reduce in the kernel. -/
def containsChar (c : Char) (s : String) : Bool :=
  s.data.contains c

/-- HashMap::contains_key on the association-list model. -/
def containsKey (k : String) : List (String × String) → Bool
  | [] => false
  | (k', _) :: rest => k' == k || containsKey k rest

/-- HashMap::insert on the association-list model: overwrites the value of an
existing key in place, otherwise appends the new pair. -/
def insertOv (k v : String) : List (String × String) → List (String × String)
  | [] => [(k, v)]
  | (k', v') :: rest =>
    if k' == k then (k, v) :: rest else (k', v') :: insertOv k v rest

/-- HashMap::entry(k).or_insert(v) on the association-list model: keeps the
first-seen value of an existing key, otherwise appends the new pair. -/
def orInsert (k v : String) (m : List (String × String)) : List (String × String) :=
  if containsKey k m then m else m ++ [(k, v)]

/-- HashMap lookup (used only to state properties; the code reads maps by
iteration). -/
def lookupKey (k : String) : List (String × String) → Option String
  | [] => none
  | (k', v) :: rest => if k' == k then some v else lookupKey k rest

/-- Data the resolver extracts from one directory entry: circuit.rs lines
168-176 and 200-204.  `subcktCaps` / `modelCaps` are the capture-group-1
strings of all `RE_SUBCKT` / `RE_MODEL` matches of the file content, in order;
`includeCap` is the capture of the first `RE_INCLUDE` match, if any. -/
structure FileEntry where
  path : String
  parent : String
  isFile : Bool
  subcktCaps : List String
  modelCaps : List String
  includeCap : Option String
deriving DecidableEq

/-- Abstract filesystem: directory path to entries, in `fs::read_dir` order. -/
def FS := String → List FileEntry

/-- Include handling after a match, circuit.rs lines 176-196 (and the
identical block at 204-224): if the first include capture has no slash it is
resolved against the matching file's parent directory, otherwise inserted
verbatim; either way with HashMap::insert (overwrite) semantics. -/
def includeEntry (f : FileEntry) (m : List (String × String)) : List (String × String) :=
  match f.includeCap with
  | none => m
  | some text1 =>
    if !containsChar '/' text1 then
      insertOv text1 (f.parent ++ "/" ++ text1) m
    else
      insertOv text1 text1 m

/-- Per-file resolution step, circuit.rs lines 170-227: for a file entry,
check every `RE_SUBCKT` capture against the key, then every `RE_MODEL`
capture; on the first hit insert `key -> path` and the include entry and
return.  Non-files are skipped. -/
def fileResult (key : String) (f : FileEntry) : Option (List (String × String)) :=
  if f.isFile then
    if f.subcktCaps.contains key then
      some (includeEntry f (insertOv key f.path []))
    else if f.modelCaps.contains key then
      some (includeEntry f (insertOv key f.path []))
    else none
  else none

/-- Scan of one directory's entries, inner loop of circuit.rs lines 168-229. -/
def scanFiles (key : String) : List FileEntry → Option (List (String × String))
  | [] => none
  | f :: rest =>
    match fileResult key f with
    | some r => some r
    | none => scanFiles key rest

/-- Scan of the search paths, outer loop of circuit.rs lines 167-230. -/
def scanPaths (fs : FS) (key : String) : List String → Option (List (String × String))
  | [] => none
  | p :: rest =>
    match scanFiles key (fs p) with
    | some r => some r
    | none => scanPaths fs key rest

/-- Circuit::get_includes, circuit.rs lines 165-232. -/
def get_includes (fs : FS) (pathlist : List String) (key : String) :
    Except Error (List (String × String)) :=
  match scanPaths fs key pathlist with
  | some r => Except.ok r
  | none => Except.error (Error.SpiceModelNotFound key)

/-- Circuit struct, circuit.rs lines 60-66: a name, the resolver search paths,
the ordered element sequence and the local sub-circuit map (name to node list
and nested Circuit); the map is modelled insertion-ordered. -/
inductive Circuit where
  | mk (name : String) (pathlist : List String) (items : List CircuitItem)
       (subcircuits : List (String × List String × Circuit))

def Circuit.name : Circuit → String
  | .mk n _ _ _ => n

def Circuit.pathlist : Circuit → List String
  | .mk _ p _ _ => p

def Circuit.items : Circuit → List CircuitItem
  | .mk _ _ i _ => i

def Circuit.subcircuits : Circuit → List (String × List String × Circuit)
  | .mk _ _ _ s => s

/-- Circuit::new, circuit.rs lines 69-76. -/
def Circuit.new (name : String) (pathlist : List String) : Circuit :=
  .mk name pathlist [] []

/-- Circuit::resistor, circuit.rs lines 78-80: append one R item. -/
def Circuit.resistor (c : Circuit) (reference n0 n1 value : String) : Circuit :=
  .mk c.name c.pathlist (c.items ++ [CircuitItem.R reference n0 n1 value]) c.subcircuits

/-- Circuit::capacitor, circuit.rs lines 82-84. -/
def Circuit.capacitor (c : Circuit) (reference n0 n1 value : String) : Circuit :=
  .mk c.name c.pathlist (c.items ++ [CircuitItem.C reference n0 n1 value]) c.subcircuits

/-- Circuit::diode, circuit.rs lines 86-88. -/
def Circuit.diode (c : Circuit) (reference n0 n1 value : String) : Circuit :=
  .mk c.name c.pathlist (c.items ++ [CircuitItem.D reference n0 n1 value]) c.subcircuits

/-- Circuit::bjt, circuit.rs lines 90-93. -/
def Circuit.bjt (c : Circuit) (reference n0 n1 n2 value : String) : Circuit :=
  .mk c.name c.pathlist (c.items ++ [CircuitItem.Q reference n0 n1 n2 value]) c.subcircuits

/-- Circuit::circuit, circuit.rs lines 95-104: append an X item (the
`get_includes` call there is commented out in the source); always `Ok`. -/
def Circuit.circuit (c : Circuit) (reference : String) (n : List String) (value : String) :
    Except Error Circuit :=
  Except.ok (.mk c.name c.pathlist (c.items ++ [CircuitItem.X reference n value]) c.subcircuits)

/-- HashMap::insert for the sub-circuit map: overwrite in place or append. -/
def insertSub (name : String) (v : List String × Circuit) :
    List (String × List String × Circuit) → List (String × List String × Circuit)
  | [] => [(name, v)]
  | (k, v') :: rest =>
    if k == name then (name, v) :: rest else (k, v') :: insertSub name v rest

/-- Circuit::subcircuit, circuit.rs lines 105-113: insert (overwriting any
existing entry of the same name) into `subcircuits`; always `Ok`. -/
def Circuit.subcircuit (c : Circuit) (name : String) (n : List String) (sub : Circuit) :
    Except Error Circuit :=
  Except.ok (.mk c.name c.pathlist c.items (insertSub name (n, sub) c.subcircuits))

/-- Circuit::voltage, circuit.rs lines 114-116. -/
def Circuit.voltage (c : Circuit) (reference n1 n2 value : String) : Circuit :=
  .mk c.name c.pathlist (c.items ++ [CircuitItem.V reference n1 n2 value]) c.subcircuits

/-- Circuit::set_value on the item list, circuit.rs lines 129-161: scan in
order; the first R, C, D or V item whose reference equals the argument gets
its value replaced and the scan returns `Ok(())`; Q and X items are skipped;
when the scan ends the error `UnknownCircuitElement` is returned.  The pair
returns the (possibly updated) list alongside the `Result`, mirroring the
in-place mutation of the Rust code. -/
def set_value_items (reference value : String) :
    List CircuitItem → Except Error Unit × List CircuitItem
  | [] => (Except.error (Error.UnknownCircuitElement reference), [])
  | CircuitItem.R r n0 n1 v :: rest =>
    if reference == r then (Except.ok (), CircuitItem.R r n0 n1 value :: rest)
    else
      let p := set_value_items reference value rest
      (p.1, CircuitItem.R r n0 n1 v :: p.2)
  | CircuitItem.C r n0 n1 v :: rest =>
    if reference == r then (Except.ok (), CircuitItem.C r n0 n1 value :: rest)
    else
      let p := set_value_items reference value rest
      (p.1, CircuitItem.C r n0 n1 v :: p.2)
  | CircuitItem.D r n0 n1 v :: rest =>
    if reference == r then (Except.ok (), CircuitItem.D r n0 n1 value :: rest)
    else
      let p := set_value_items reference value rest
      (p.1, CircuitItem.D r n0 n1 v :: p.2)
  | CircuitItem.Q r n0 n1 n2 v :: rest =>
    let p := set_value_items reference value rest
    (p.1, CircuitItem.Q r n0 n1 n2 v :: p.2)
  | CircuitItem.X r n v :: rest =>
    let p := set_value_items reference value rest
    (p.1, CircuitItem.X r n v :: p.2)
  | CircuitItem.V r n0 n1 v :: rest =>
    if reference == r then (Except.ok (), CircuitItem.V r n0 n1 value :: rest)
    else
      let p := set_value_items reference value rest
      (p.1, CircuitItem.V r n0 n1 v :: p.2)

/-- Circuit::set_value, circuit.rs lines 129-161, lifted to the Circuit. -/
def Circuit.set_value (c : Circuit) (reference value : String) :
    Except Error Unit × Circuit :=
  let p := set_value_items reference value c.items
  (p.1, .mk c.name c.pathlist p.2 c.subcircuits)

/-- Per-item line formatting, the match of circuit.rs lines 270-306: R, C and
D prepend their letter only when the stored reference does not already start
with it (case-sensitive); Q, X and V prepend unconditionally.  The X case
builds `nodes` by appending each node followed by one space (the loop at
lines 296-300) and formats `X{reference} {nodes}{value}`. -/
def itemLine : CircuitItem → String
  | CircuitItem.R reference n0 n1 value =>
    if startsWithChar 'R' reference then
      reference ++ " " ++ n0 ++ " " ++ n1 ++ " " ++ value
    else
      "R" ++ reference ++ " " ++ n0 ++ " " ++ n1 ++ " " ++ value
  | CircuitItem.C reference n0 n1 value =>
    if startsWithChar 'C' reference then
      reference ++ " " ++ n0 ++ " " ++ n1 ++ " " ++ value
    else
      "C" ++ reference ++ " " ++ n0 ++ " " ++ n1 ++ " " ++ value
  | CircuitItem.D reference n0 n1 value =>
    if startsWithChar 'D' reference then
      reference ++ " " ++ n0 ++ " " ++ n1 ++ " " ++ value
    else
      "D" ++ reference ++ " " ++ n0 ++ " " ++ n1 ++ " " ++ value
  | CircuitItem.Q reference n0 n1 n2 value =>
    "Q" ++ reference ++ " " ++ n0 ++ " " ++ n1 ++ " " ++ n2 ++ " " ++ value
  | CircuitItem.X reference n value =>
    "X" ++ reference ++ " " ++ (n.foldl (fun acc x => acc ++ x ++ " ") "") ++ value
  | CircuitItem.V reference n0 n1 value =>
    "V" ++ reference ++ " " ++ n0 ++ " " ++ n1 ++ " " ++ value

/-- The merge loop of circuit.rs lines 240-242 (and 247-249):
`includes.entry(key).or_insert(value)` for every pair of a resolver result. -/
def mergeIncs (incs : List (String × String)) (acc : List (String × String)) :
    List (String × String) :=
  incs.foldl (fun acc kv => orInsert kv.1 kv.2 acc) acc

/-- Circuit::includes accumulation loop, circuit.rs lines 235-252, instrumented
with the list of keys passed to `get_includes` (second component), in call
order.  For an X or Q item whose value is neither a key of the accumulated map
nor a key of `subcircuits` (here: a member of `subKeys`), the resolver is
called and its result merged with `or_insert`; the `.unwrap()` on the resolver
result makes a resolver error a panic, modelled as `none`. -/
def includesAux (fs : FS) (pathlist subKeys : List String) :
    List CircuitItem → List (String × String) →
    Option (List (String × String) × List String)
  | [], acc => some (acc, [])
  | CircuitItem.X _ _ value :: rest, acc =>
    if !containsKey value acc && !subKeys.contains value then
      match get_includes fs pathlist value with
      | Except.error _ => none
      | Except.ok incs =>
        match includesAux fs pathlist subKeys rest (mergeIncs incs acc) with
        | none => none
        | some (m, log) => some (m, value :: log)
    else includesAux fs pathlist subKeys rest acc
  | CircuitItem.Q _ _ _ _ value :: rest, acc =>
    if !containsKey value acc && !subKeys.contains value then
      match get_includes fs pathlist value with
      | Except.error _ => none
      | Except.ok incs =>
        match includesAux fs pathlist subKeys rest (mergeIncs incs acc) with
        | none => none
        | some (m, log) => some (m, value :: log)
    else includesAux fs pathlist subKeys rest acc
  | _ :: rest, acc => includesAux fs pathlist subKeys rest acc

/-- Circuit::includes, circuit.rs lines 234-258: build the include map, then
one `.include {path}\n` line per entry, in the map's iteration order. -/
def includesLines (fs : FS) (pathlist subKeys : List String) (items : List CircuitItem) :
    Option (List String) :=
  match includesAux fs pathlist subKeys items [] with
  | none => none
  | some (m, _) => some (m.map (fun kv => ".include " ++ kv.2 ++ "\n"))

/-- Circuit::includes on a Circuit value. -/
def Circuit.includes (fs : FS) (c : Circuit) : Option (List String) :=
  includesLines fs c.pathlist (c.subcircuits.map Prod.fst) c.items

mutual

/-- Circuit::to_str, circuit.rs lines 260-313: the include lines, then one
block per `subcircuits` entry (`.subckt <name> <nodes.join(" ")>`, the
recursive rendering with `close = false`, `.ends`), then one formatted line
per item in order, then `.end` when `close` is true, all wrapped in `Ok`.
The `.unwrap()` calls on `includes`' resolver results and on the recursive
`to_str` results make their failures panics, modelled as `none`. -/
def Circuit.to_str (fs : FS) : Circuit → Bool → Option (Except Error (List String))
  | .mk _ pathlist items subs, close =>
    match includesLines fs pathlist (subs.map Prod.fst) items with
    | none => none
    | some incs =>
      match Circuit.subLines fs subs with
      | none => none
      | some sls =>
        some (Except.ok
          (incs ++ sls ++ items.map itemLine ++ (if close then [".end"] else [])))

/-- The sub-circuit loop of circuit.rs lines 263-268, producing the block
lines of every entry in order. -/
def Circuit.subLines (fs : FS) :
    List (String × List String × Circuit) → Option (List String)
  | [] => some []
  | (key, nodes, sub) :: rest =>
    match Circuit.to_str fs sub false with
    | none => none
    | some (Except.error _) => none
    | some (Except.ok ls) =>
      match Circuit.subLines fs rest with
      | none => none
      | some rls =>
        some (((".subckt " ++ key ++ " " ++ String.intercalate " " nodes) ::
          (ls ++ [".ends"])) ++ rls)

end

/-! Specification-side definitions, written from the wording of the spec
(spec.md §4.2, §4.4, §4.3 step 1) rather than from the code, for comparison
with the embedded definitions above. -/

/-- Spec-side: a file entry that defines `key`, per §4.2 step 2: a regular
file one of whose sub-circuit-header captures or model-definition captures
equals the symbolic name. -/
def fileMatches (key : String) (f : FileEntry) : Bool :=
  f.isFile && (f.subcktCaps.contains key || f.modelCaps.contains key)

/-- Spec-side: all directory entries of the search paths, in search order. -/
def allFiles (fs : FS) (pathlist : List String) : List FileEntry :=
  (pathlist.map fs).flatten

/-- Spec-side: the first file in search order that defines `key`. -/
def firstMatchFile (fs : FS) (pathlist : List String) (key : String) : Option FileEntry :=
  (allFiles fs pathlist).find? (fileMatches key)

/-- Result map the code builds for a matching file (`key -> path` followed by
the include handling); abbreviation for stating resolver theorems. -/
def resultFor (key : String) (f : FileEntry) : List (String × String) :=
  includeEntry f (insertOv key f.path [])

/-- Spec-side content of a successful resolver result, per §4.2 step 4 as
amended: the `symbolicName -> path` entry plus the entry of the first include
directive (resolved against the file's directory when it has no separator),
where an include entry whose key equals the symbolic name overwrites the
`symbolicName -> path` entry. -/
def specResolveResult (key : String) (f : FileEntry) : List (String × String) :=
  match f.includeCap with
  | none => [(key, f.path)]
  | some inc =>
    let v := if containsChar '/' inc then inc else f.parent ++ "/" ++ inc
    if inc == key then [(inc, v)] else [(key, f.path), (inc, v)]

/-- Spec-side: the words of §4.4.  R, C and D keep an already-prefixed
reference and otherwise gain the canonical letter; Q, X and V always gain it;
an X line is the space-separated sequence `X<reference> <nodes...> <name>`. -/
def spaceSep : List String → String
  | [] => ""
  | [x] => x
  | x :: xs => x ++ " " ++ spaceSep xs

/-- Spec-side per-variant line format of §4.4. -/
def specLine : CircuitItem → String
  | CircuitItem.R reference n0 n1 value =>
    (if startsWithChar 'R' reference then reference else "R" ++ reference) ++
      " " ++ n0 ++ " " ++ n1 ++ " " ++ value
  | CircuitItem.C reference n0 n1 value =>
    (if startsWithChar 'C' reference then reference else "C" ++ reference) ++
      " " ++ n0 ++ " " ++ n1 ++ " " ++ value
  | CircuitItem.D reference n0 n1 value =>
    (if startsWithChar 'D' reference then reference else "D" ++ reference) ++
      " " ++ n0 ++ " " ++ n1 ++ " " ++ value
  | CircuitItem.Q reference n0 n1 n2 value =>
    spaceSep ["Q" ++ reference, n0, n1, n2, value]
  | CircuitItem.X reference n value =>
    spaceSep ((("X" ++ reference) :: n) ++ [value])
  | CircuitItem.V reference n0 n1 value =>
    spaceSep ["V" ++ reference, n0, n1, value]

/-- Spec-side: the elements `setValue` may match, per §4.1: an R, C, D or V
item whose stored reference equals the argument; Q and X never match. -/
def matchesMutable (reference : String) : CircuitItem → Bool
  | CircuitItem.R r _ _ _ => reference == r
  | CircuitItem.C r _ _ _ => reference == r
  | CircuitItem.D r _ _ _ => reference == r
  | CircuitItem.V r _ _ _ => reference == r
  | _ => false

/-- Spec-side: replacement of the value field of a matched element. -/
def setItemValue (value : String) : CircuitItem → CircuitItem
  | CircuitItem.R r n0 n1 _ => CircuitItem.R r n0 n1 value
  | CircuitItem.C r n0 n1 _ => CircuitItem.C r n0 n1 value
  | CircuitItem.D r n0 n1 _ => CircuitItem.D r n0 n1 value
  | CircuitItem.V r n0 n1 _ => CircuitItem.V r n0 n1 value
  | item => item

/-- Spec-side: update of the first matching element, all others unchanged. -/
def updateFirst (reference value : String) : List CircuitItem → List CircuitItem
  | [] => []
  | item :: rest =>
    if matchesMutable reference item then setItemValue value item :: rest
    else item :: updateFirst reference value rest

/-- Spec-side: the referenced external name of an element, per §4.3 step 1:
only SubcircuitInstance and Transistor elements reference one. -/
def externalName : CircuitItem → Option String
  | CircuitItem.X _ _ name => some name
  | CircuitItem.Q _ _ _ _ name => some name
  | _ => none

/-- Spec-side include-set computation of §4.3 step 1, instrumented like
`includesAux` with the list of resolver invocations: for every element with an
external name (in element order) that is neither a key of the accumulated set
nor a key of `subcircuits`, the resolver is called and its result merged
keeping the first-seen mapping; no other element kind triggers resolution. -/
def specIncludeAux (fs : FS) (pathlist subKeys : List String) :
    List CircuitItem → List (String × String) →
    Option (List (String × String) × List String)
  | [], acc => some (acc, [])
  | item :: rest, acc =>
    match externalName item with
    | none => specIncludeAux fs pathlist subKeys rest acc
    | some name =>
      if containsKey name acc || subKeys.contains name then
        specIncludeAux fs pathlist subKeys rest acc
      else
        match get_includes fs pathlist name with
        | Except.error _ => none
        | Except.ok incs =>
          match specIncludeAux fs pathlist subKeys rest (mergeIncs incs acc) with
          | none => none
          | some (m, log) => some (m, name :: log)

/-! Concrete fixtures used by witnesses, counterexamples and failing-input
evaluations. -/

/-- Fixture: the empty filesystem. -/
def fsEmpty : FS := fun _ => []

/-- Fixture: an empty circuit. -/
def cEmpty : Circuit := Circuit.new "test" []

/-- Fixture: a circuit whose single sub-circuit instance references a name no
search path resolves. -/
def cUnresolved : Circuit :=
  Circuit.mk "test" [] [CircuitItem.X "U1" ["in", "out"] "NOPE"] []

/-- Fixture: a directory entry defining `FOO` as a model only. -/
def fileModelFoo : FileEntry :=
  ⟨"p/m.lib", "p", true, [], ["FOO"], none⟩

/-- Fixture: a directory entry defining `FOO` as a sub-circuit only. -/
def fileSubcktFoo : FileEntry :=
  ⟨"p/s.lib", "p", true, ["FOO"], [], none⟩

/-- Fixture: one search directory listing the model-defining file before the
sub-circuit-defining file. -/
def fsTwoPatterns : FS :=
  fun p => if p = "p" then [fileModelFoo, fileSubcktFoo] else []

/-- Fixture: a file whose first include directive names the symbolic name
itself. -/
def fileSelfInclude : FileEntry :=
  ⟨"d/a.lib", "d", true, ["FOO"], [], some "FOO"⟩

/-- Fixture: one search directory holding only `fileSelfInclude`. -/
def fsSelfInclude : FS :=
  fun p => if p = "d" then [fileSelfInclude] else []

/-- Fixture: the spec's §8 nested-include scenario, a file defining the model
`BC547B` with the include directive `bc5x7.lib`. -/
def fileBC547 : FileEntry :=
  ⟨"files/spice/BC547.mod", "files/spice", true, [], ["BC547B"], some "bc5x7.lib"⟩

/-- Fixture: the `files/spice/` search directory of the §8 scenario. -/
def fsSpice : FS :=
  fun p => if p = "files/spice/" then [fileBC547] else []

/-- Fixture: a circuit holding one resistor whose stored reference is the bare
string "1". -/
def cBareResistor : Circuit :=
  (Circuit.new "test" []).resistor "1" "a" "b" "100"

/-! Helper lemmas (shared; none is a claim's theorem). -/

theorem fileResult_eq (key : String) (f : FileEntry) :
    fileResult key f = if fileMatches key f then some (resultFor key f) else none := by
  obtain ⟨p, pa, isf, sc, mc, inc⟩ := f
  simp only [fileResult, fileMatches, resultFor]
  cases isf <;> cases h1 : sc.contains key <;> cases h2 : mc.contains key <;>
    simp [h1, h2]

theorem scanFiles_eq (key : String) (l : List FileEntry) :
    scanFiles key l = (l.find? (fileMatches key)).map (resultFor key) := by
  induction l with
  | nil => rfl
  | cons f rest ih =>
    rw [scanFiles, fileResult_eq]
    cases h : fileMatches key f <;> simp [List.find?_cons, h, ih]

theorem scanPaths_eq (fs : FS) (key : String) (pl : List String) :
    scanPaths fs key pl = ((allFiles fs pl).find? (fileMatches key)).map (resultFor key) := by
  induction pl with
  | nil => rfl
  | cons p rest ih =>
    rw [scanPaths, scanFiles_eq]
    simp only [allFiles, List.map_cons, List.flatten_cons, List.find?_append]
    cases h : (fs p).find? (fileMatches key) <;> simp [h, ih, allFiles]

theorem get_includes_eq (fs : FS) (pathlist : List String) (key : String) :
    get_includes fs pathlist key =
      match firstMatchFile fs pathlist key with
      | none => Except.error (Error.SpiceModelNotFound key)
      | some f => Except.ok (resultFor key f) := by
  unfold get_includes firstMatchFile
  rw [scanPaths_eq]
  cases (allFiles fs pathlist).find? (fileMatches key) <;> simp

theorem fileMatches_iff (key : String) (f : FileEntry) :
    fileMatches key f = true ↔
      (f.isFile = true ∧ (key ∈ f.subcktCaps ∨ key ∈ f.modelCaps)) := by
  simp [fileMatches]

theorem mem_allFiles (fs : FS) (pathlist : List String) (f : FileEntry) :
    f ∈ allFiles fs pathlist ↔ ∃ p ∈ pathlist, f ∈ fs p := by
  simp [allFiles, List.mem_flatten]

theorem resultFor_eq_spec (key : String) (f : FileEntry) :
    resultFor key f = specResolveResult key f := by
  obtain ⟨p, pa, isf, sc, mc, inc⟩ := f
  cases inc with
  | none => rfl
  | some t =>
    by_cases hkt : key = t
    · subst hkt
      cases h : containsChar '/' key <;>
        simp [resultFor, includeEntry, specResolveResult, insertOv, h]
    · have h1 : (key == t) = false := by simp [hkt]
      have h2 : (t == key) = false := by simp [Ne.symm hkt]
      cases h : containsChar '/' t <;>
        simp [resultFor, includeEntry, specResolveResult, insertOv, h, h1, h2]

/-! Claim theorems. -/

/-- C4 (amended): the resolver makes a single pass over the files of the
search paths in order; within each file the sub-circuit-header captures are
tested before the model-definition captures, and the first file matching
either pattern is taken (so both branches build the same result, the scan is
summarised by one search with the disjunction of the two patterns); scanning
stops at that file, and with no match the error is `SpiceModelNotFound`. -/
theorem get_includes_single_scan_first_match (fs : FS) (pathlist : List String) (key : String) :
    get_includes fs pathlist key =
      match firstMatchFile fs pathlist key with
      | none => Except.error (Error.SpiceModelNotFound key)
      | some f => Except.ok (resultFor key f) :=
  get_includes_eq fs pathlist key

/-- C4 counterexample: the search directory lists a file defining `FOO` as a
model before a file defining `FOO` as a sub-circuit.  Under the claim the
whole-scan SUBCKT pass would win and map `FOO` to the sub-circuit file
`p/s.lib`; the code instead returns the earlier model file `p/m.lib`. -/
theorem get_includes_two_pass_counterexample :
    fsTwoPatterns "p" = [fileModelFoo, fileSubcktFoo] ∧
    fileModelFoo.subcktCaps.contains "FOO" = false ∧
    fileSubcktFoo.subcktCaps.contains "FOO" = true ∧
    get_includes fsTwoPatterns ["p"] "FOO" = Except.ok [("FOO", fileModelFoo.path)] ∧
    fileModelFoo.path ≠ fileSubcktFoo.path := by
  refine ⟨rfl, rfl, rfl, rfl, ?_⟩
  decide

/-- C5 (amended): a successful resolution of `key` returns the map built from
the first matching file: the entry `key -> path` plus the entry of the first
include directive, except that an include entry whose key equals the symbolic
name overwrites the `key -> path` entry; no other keys appear. -/
theorem get_includes_ok_contents (fs : FS) (pathlist : List String) (key : String)
    (m : List (String × String)) (h : get_includes fs pathlist key = Except.ok m) :
    ∃ f, firstMatchFile fs pathlist key = some f ∧ m = specResolveResult key f := by
  rw [get_includes_eq] at h
  cases hf : firstMatchFile fs pathlist key with
  | none => rw [hf] at h; exact absurd h (by simp)
  | some f =>
    rw [hf] at h
    refine ⟨f, rfl, ?_⟩
    have hm : resultFor key f = m := by
      simpa using h
    rw [← hm, resultFor_eq_spec]

/-- C5 witness: the §8 nested-include scenario, a file defining the model
`BC547B` together with the include directive `bc5x7.lib`, yields exactly the
model's own file and the include resolved against its directory. -/
theorem get_includes_ok_contents_witness :
    get_includes fsSpice ["files/spice/"] "BC547B" =
      Except.ok [("BC547B", "files/spice/BC547.mod"),
        ("bc5x7.lib", "files/spice/bc5x7.lib")] ∧
    (∃ f, firstMatchFile fsSpice ["files/spice/"] "BC547B" = some f ∧
      [("BC547B", "files/spice/BC547.mod"), ("bc5x7.lib", "files/spice/bc5x7.lib")] =
        specResolveResult "BC547B" f) :=
  ⟨rfl, get_includes_ok_contents fsSpice ["files/spice/"] "BC547B" _ rfl⟩

/-- C5 counterexample: a file defining sub-circuit `FOO` whose first include
directive is the separator-free argument `FOO` itself.  The claim requires the
result to contain `FOO -> d/a.lib` (the matching file) next to the include
entry; the code's second insert overwrites it, leaving only `FOO -> d/FOO`. -/
theorem get_includes_collision_counterexample :
    fileSelfInclude.path = "d/a.lib" ∧
    fileSelfInclude.subcktCaps.contains "FOO" = true ∧
    fileSelfInclude.includeCap = some "FOO" ∧
    get_includes fsSelfInclude ["d"] "FOO" = Except.ok [("FOO", "d/FOO")] ∧
    lookupKey "FOO" [("FOO", "d/FOO")] = some "d/FOO" ∧
    ("d/FOO" : String) ≠ "d/a.lib" := by
  refine ⟨rfl, rfl, rfl, rfl, rfl, ?_⟩
  decide

/-- C6: the resolver fails with `SpiceModelNotFound key` exactly when no
regular file of any search path has a sub-circuit-header or model-definition
capture equal to the key. -/
theorem get_includes_not_found_iff (fs : FS) (pathlist : List String) (key : String) :
    get_includes fs pathlist key = Except.error (Error.SpiceModelNotFound key) ↔
      ∀ p ∈ pathlist, ∀ f ∈ fs p,
        ¬(f.isFile = true ∧ (key ∈ f.subcktCaps ∨ key ∈ f.modelCaps)) := by
  rw [get_includes_eq]
  have h1 : (match firstMatchFile fs pathlist key with
      | none => Except.error (Error.SpiceModelNotFound key)
      | some f => Except.ok (resultFor key f)) =
        Except.error (Error.SpiceModelNotFound key) ↔
      firstMatchFile fs pathlist key = none := by
    cases firstMatchFile fs pathlist key <;> simp
  rw [h1, firstMatchFile, List.find?_eq_none]
  constructor
  · intro h p hp f hf hc
    exact h f ((mem_allFiles fs pathlist f).mpr ⟨p, hp, hf⟩)
      ((fileMatches_iff key f).mpr hc)
  · intro h f hf hm
    obtain ⟨p, hp, hfp⟩ := (mem_allFiles fs pathlist f).mp hf
    exact h p hp f hfp ((fileMatches_iff key f).mp hm)

/-- C7 (code bug): with no search path, resolving `NOPE` produces the typed
error `SpiceModelNotFound "NOPE"`, yet rendering a circuit that references
`NOPE` does not surface it: the `.unwrap()` inside `includes` panics (modelled
as `none`), so the render neither completes nor returns any typed error. -/
theorem to_str_panics_on_unresolved_model :
    get_includes fsEmpty [] "NOPE" = Except.error (Error.SpiceModelNotFound "NOPE") ∧
    Circuit.to_str fsEmpty cUnresolved true = none :=
  ⟨rfl, rfl⟩

theorem subLines_structure (fs : FS) :
    ∀ (subs : List (String × List String × Circuit)) (sls : List String),
      Circuit.subLines fs subs = some sls →
      ∃ bodies : List (List String),
        List.Forall₂ (fun s b => Circuit.to_str fs s.2.2 false = some (Except.ok b))
          subs bodies ∧
        sls = (List.zipWith
          (fun s b =>
            (".subckt " ++ s.1 ++ " " ++ String.intercalate " " s.2.1) :: (b ++ [".ends"]))
          subs bodies).flatten := by
  intro subs
  induction subs with
  | nil =>
    intro sls h
    refine ⟨[], List.Forall₂.nil, ?_⟩
    simpa [Circuit.subLines] using h.symm
  | cons hd tl ih =>
    intro sls h
    obtain ⟨key, nodes, sub⟩ := hd
    simp only [Circuit.subLines] at h
    cases hts : Circuit.to_str fs sub false with
    | none => rw [hts] at h; exact absurd h (by simp)
    | some res =>
      cases res with
      | error e => rw [hts] at h; exact absurd h (by simp)
      | ok ls =>
        rw [hts] at h
        cases hrest : Circuit.subLines fs tl with
        | none => rw [hrest] at h; exact absurd h (by simp)
        | some rls =>
          rw [hrest] at h
          obtain ⟨bodies, hfa, hflat⟩ := ih rls hrest
          refine ⟨ls :: bodies, List.Forall₂.cons hts hfa, ?_⟩
          simp only [Option.some.injEq] at h
          rw [← h, hflat]
          simp

/-- C1: a successful render is the include lines, then one block per
`subcircuits` entry — the `.subckt <name> <nodes space-joined>` header, the
recursive rendering of the nested circuit with `close = false`, and `.ends` —
then exactly one formatted line per element in insertion order, and `.end`
exactly when `close` is true. -/
theorem to_str_line_structure (fs : FS) (c : Circuit) (close : Bool) (r : List String)
    (h : Circuit.to_str fs c close = some (Except.ok r)) :
    ∃ incs bodies,
      Circuit.includes fs c = some incs ∧
      List.Forall₂ (fun s b => Circuit.to_str fs s.2.2 false = some (Except.ok b))
        c.subcircuits bodies ∧
      r = incs ++
        (List.zipWith (fun s b =>
          (".subckt " ++ s.1 ++ " " ++ String.intercalate " " s.2.1) :: (b ++ [".ends"]))
          c.subcircuits bodies).flatten ++
        c.items.map itemLine ++
        (if close then [".end"] else []) := by
  obtain ⟨name, pathlist, items, subs⟩ := c
  simp only [Circuit.to_str] at h
  cases hin : includesLines fs pathlist (subs.map Prod.fst) items with
  | none => rw [hin] at h; exact absurd h (by simp)
  | some incs =>
    rw [hin] at h
    cases hsl : Circuit.subLines fs subs with
    | none => rw [hsl] at h; exact absurd h (by simp)
    | some sls =>
      rw [hsl] at h
      obtain ⟨bodies, hfa, hflat⟩ := subLines_structure fs subs sls hsl
      refine ⟨incs, bodies, ?_, ?_, ?_⟩
      · simpa [Circuit.includes, Circuit.pathlist, Circuit.subcircuits, Circuit.items]
          using hin
      · simpa [Circuit.subcircuits] using hfa
      · have hr : incs ++ sls ++ items.map itemLine ++ (if close then [".end"] else []) = r := by
          simpa using h
        rw [← hr, hflat]
        simp [Circuit.items, Circuit.subcircuits]

/-- C1 witness: the empty circuit rendered with `close = true`. -/
theorem to_str_line_structure_witness :
    Circuit.to_str fsEmpty cEmpty true = some (Except.ok [".end"]) ∧
    (∃ incs bodies,
      Circuit.includes fsEmpty cEmpty = some incs ∧
      List.Forall₂ (fun s b => Circuit.to_str fsEmpty s.2.2 false = some (Except.ok b))
        cEmpty.subcircuits bodies ∧
      [".end"] = incs ++
        (List.zipWith (fun s b =>
          (".subckt " ++ s.1 ++ " " ++ String.intercalate " " s.2.1) :: (b ++ [".ends"]))
          cEmpty.subcircuits bodies).flatten ++
        cEmpty.items.map itemLine ++
        (if true then [".end"] else [])) :=
  ⟨rfl, to_str_line_structure fsEmpty cEmpty true [".end"] rfl⟩

theorem foldl_space (n : List String) (a : String) :
    n.foldl (fun acc x => acc ++ x ++ " ") a =
      a ++ n.foldl (fun acc x => acc ++ x ++ " ") "" := by
  induction n generalizing a with
  | nil => simp
  | cons x xs ih =>
    simp only [List.foldl_cons]
    rw [ih (a ++ x ++ " "), ih ("" ++ x ++ " ")]
    simp [String.append_assoc]

theorem spaceSep_eq_fold (value : String) :
    ∀ (n : List String) (pre : String),
      pre ++ " " ++ (n.foldl (fun acc x => acc ++ x ++ " ") "") ++ value =
        spaceSep ((pre :: n) ++ [value]) := by
  intro n
  induction n with
  | nil =>
    intro pre
    simp [spaceSep]
  | cons x xs ih =>
    intro pre
    simp only [List.foldl_cons, List.cons_append]
    rw [foldl_space xs ("" ++ x ++ " ")]
    have hss : spaceSep (pre :: x :: (xs ++ [value])) =
        pre ++ " " ++ spaceSep (x :: (xs ++ [value])) := rfl
    rw [hss, ← List.cons_append, ← ih x]
    simp [String.append_assoc]

/-- C2: every rendered element line follows the per-variant prefix rule of
§4.4 — R, C and D prepend their canonical letter only when the stored
reference does not already start with it (case-sensitive), while Q, X and V
prepend it unconditionally, the X line carrying the node list space-joined
before the sub-circuit name. -/
theorem itemLine_matches_prefix_rule (item : CircuitItem) :
    itemLine item = specLine item := by
  cases item with
  | R reference n0 n1 value =>
    simp only [itemLine, specLine]
    by_cases h : startsWithChar 'R' reference <;> simp [h]
  | C reference n0 n1 value =>
    simp only [itemLine, specLine]
    by_cases h : startsWithChar 'C' reference <;> simp [h]
  | D reference n0 n1 value =>
    simp only [itemLine, specLine]
    by_cases h : startsWithChar 'D' reference <;> simp [h]
  | Q reference n0 n1 n2 value =>
    simp [itemLine, specLine, spaceSep, String.append_assoc]
  | X reference n value =>
    simpa [itemLine, specLine] using spaceSep_eq_fold value n ("X" ++ reference)
  | V reference n0 n1 value =>
    simp [itemLine, specLine, spaceSep, String.append_assoc]

theorem set_value_items_eq (reference value : String) :
    ∀ items : List CircuitItem,
      set_value_items reference value items =
        if items.any (matchesMutable reference) then
          (Except.ok (), updateFirst reference value items)
        else (Except.error (Error.UnknownCircuitElement reference), items) := by
  intro items
  induction items with
  | nil => rfl
  | cons item rest ih =>
    cases item with
    | R r n0 n1 v =>
      cases h : reference == r <;> cases hr : rest.any (matchesMutable reference) <;>
        simp [set_value_items, matchesMutable, updateFirst, setItemValue,
          List.any_cons, h, hr, ih]
    | C r n0 n1 v =>
      cases h : reference == r <;> cases hr : rest.any (matchesMutable reference) <;>
        simp [set_value_items, matchesMutable, updateFirst, setItemValue,
          List.any_cons, h, hr, ih]
    | D r n0 n1 v =>
      cases h : reference == r <;> cases hr : rest.any (matchesMutable reference) <;>
        simp [set_value_items, matchesMutable, updateFirst, setItemValue,
          List.any_cons, h, hr, ih]
    | Q r n0 n1 n2 v =>
      cases hr : rest.any (matchesMutable reference) <;>
        simp [set_value_items, matchesMutable, updateFirst, List.any_cons, hr, ih]
    | X r n v =>
      cases hr : rest.any (matchesMutable reference) <;>
        simp [set_value_items, matchesMutable, updateFirst, List.any_cons, hr, ih]
    | V r n0 n1 v =>
      cases h : reference == r <;> cases hr : rest.any (matchesMutable reference) <;>
        simp [set_value_items, matchesMutable, updateFirst, setItemValue,
          List.any_cons, h, hr, ih]

/-- C3: `set_value` updates the value of the first R, C, D or V element whose
stored reference equals the argument and reports success; Q and X elements
are never matched; with no match it returns `UnknownCircuitElement reference`
and the circuit is unchanged. -/
theorem set_value_first_match (c : Circuit) (reference value : String) :
    c.set_value reference value =
      if c.items.any (matchesMutable reference) then
        (Except.ok (),
          Circuit.mk c.name c.pathlist (updateFirst reference value c.items) c.subcircuits)
      else (Except.error (Error.UnknownCircuitElement reference), c) := by
  obtain ⟨name, pathlist, items, subs⟩ := c
  simp only [Circuit.set_value, Circuit.items, Circuit.name, Circuit.pathlist,
    Circuit.subcircuits]
  rw [set_value_items_eq]
  cases h : items.any (matchesMutable reference) <;> simp [h]

/-- C8: the include-set computation calls the resolver exactly for the
SubcircuitInstance and Transistor elements, in element order, whose
referenced name is neither a key of the accumulated include set nor a key of
`subcircuits`, merging each result with first-insertion-wins; no other
element kind triggers resolution.  Stated as equality of the instrumented
code path with the computation transcribed from the spec's words. -/
theorem includes_resolver_calls (fs : FS) (pathlist subKeys : List String) :
    ∀ (items : List CircuitItem) (acc : List (String × String)),
      includesAux fs pathlist subKeys items acc =
        specIncludeAux fs pathlist subKeys items acc := by
  intro items
  induction items with
  | nil => intro acc; rfl
  | cons item rest ih =>
    intro acc
    cases item with
    | X r n v =>
      simp only [includesAux, specIncludeAux, externalName]
      have hb : (!containsKey v acc && !subKeys.contains v) =
          !(containsKey v acc || subKeys.contains v) := by
        cases containsKey v acc <;> cases subKeys.contains v <;> rfl
      rw [hb]
      cases hc : containsKey v acc || subKeys.contains v with
      | true => simp [ih]
      | false =>
        simp only [Bool.not_false, if_true, if_neg, Bool.false_eq_true,
          not_false_eq_true]
        cases hg : get_includes fs pathlist v with
        | error e => rfl
        | ok incs => simp [ih]
    | Q r n0 n1 n2 v =>
      simp only [includesAux, specIncludeAux, externalName]
      have hb : (!containsKey v acc && !subKeys.contains v) =
          !(containsKey v acc || subKeys.contains v) := by
        cases containsKey v acc <;> cases subKeys.contains v <;> rfl
      rw [hb]
      cases hc : containsKey v acc || subKeys.contains v with
      | true => simp [ih]
      | false =>
        simp only [Bool.not_false, if_true, if_neg, Bool.false_eq_true,
          not_false_eq_true]
        cases hg : get_includes fs pathlist v with
        | error e => rfl
        | ok incs => simp [ih]
    | R r n0 n1 v => simpa only [includesAux, specIncludeAux, externalName] using ih acc
    | C r n0 n1 v => simpa only [includesAux, specIncludeAux, externalName] using ih acc
    | D r n0 n1 v => simpa only [includesAux, specIncludeAux, externalName] using ih acc
    | V r n0 n1 v => simpa only [includesAux, specIncludeAux, externalName] using ih acc

/-- C9: rendering the same unmodified circuit twice yields identical line
sequences (hence identical element lines and sub-circuit blocks); the
serializer is a function of the circuit and the filesystem alone. -/
theorem to_str_deterministic (fs : FS) (c : Circuit) (close : Bool) (r₁ r₂ : List String)
    (h₁ : Circuit.to_str fs c close = some (Except.ok r₁))
    (h₂ : Circuit.to_str fs c close = some (Except.ok r₂)) : r₁ = r₂ := by
  rw [h₁] at h₂
  simpa using h₂

/-- C9 witness: two renders of the empty circuit. -/
theorem to_str_deterministic_witness :
    Circuit.to_str fsEmpty cEmpty true = some (Except.ok [".end"]) ∧
    ([".end"] : List String) = [".end"] :=
  ⟨rfl, to_str_deterministic fsEmpty cEmpty true [".end"] [".end"] rfl rfl⟩

/-- C10: `set_value` compares references verbatim, without the serializer's
prefix normalization: the resistor stored with reference "1" renders as
"R1 a b 100", yet `set_value "R1"` fails with `UnknownCircuitElement "R1"`
leaving the circuit unchanged, while `set_value "1"` succeeds and updates
that element. -/
theorem set_value_verbatim_reference :
    itemLine (CircuitItem.R "1" "a" "b" "100") = "R1 a b 100" ∧
    Circuit.to_str fsEmpty cBareResistor false = some (Except.ok ["R1 a b 100"]) ∧
    (cBareResistor.set_value "R1" "5").1 =
      Except.error (Error.UnknownCircuitElement "R1") ∧
    (cBareResistor.set_value "R1" "5").2 = cBareResistor ∧
    (cBareResistor.set_value "1" "5").1 = Except.ok () ∧
    (cBareResistor.set_value "1" "5").2.items = [CircuitItem.R "1" "a" "b" "5"] :=
  ⟨rfl, rfl, rfl, rfl, rfl, rfl⟩

end ElektronSpice
